import Mathlib

/-!
Verification development for the cassandra coordination engine of gcam-driver.

The embedding follows `src/cassandra/components.py` and
`src/cassandra/gcam/gcam_driver.py`:

* `ComponentBase.__init__` (components.py 118-142) keeps a status indicator
  (0 = not yet run, 1 = complete, 2 = error), a `results` dictionary seeded
  with `results["changed"] = 1`, a `params` dictionary, a reference to the
  shared capability table `cap_tbl`, and a `threading.Condition`.
* `run_component_wrapper` (components.py 151-191) holds the condition lock
  for the whole run of `run_component()`, then sets status 1 on a zero
  return value and 2 otherwise (also on an exception, which it re-raises),
  and calls `notify_all()` before releasing the lock.
* `fetch` (components.py 193-219) takes the lock, waits while status is 0,
  releases, and afterwards raises `RuntimeError` when status is not 1,
  otherwise returns the `results` dictionary.
* the `__main__` block of gcam_driver.py starts every component's thread,
  joins all of them, and counts the components whose status is not 1.

Dictionaries are embedded as ordered association lists (Python dicts keep
insertion order and overwrite in place).  The condition-variable protocol is
embedded as a small-step transition system `Step` over a system state `Sys`
holding the task's fields and the program counter of the single runner
thread and of each consumer thread blocked in `fetch()`.
-/

namespace Cassandra

/-- Values stored in a component's `results`/`params` dictionaries:
strings (file paths, tags), integers (the `changed` flag is 1 or 0),
and booleans (`water-transfer`). -/
inductive Val where
  | vInt (n : Int)
  | vStr (s : String)
  | vBool (b : Bool)
deriving DecidableEq, Repr

/-- Python dict assignment `m[k] = v` on an insertion-ordered association
list: overwrite in place if the key is present, append otherwise. -/
def alistSet {α : Type} : List (String × α) → String → α → List (String × α)
  | [], k, v => [(k, v)]
  | (k2, v2) :: rest, k, v =>
      if k2 = k then (k, v) :: rest else (k2, v2) :: alistSet rest k v

/-- Python dict lookup `m[k]`, returning `none` where Python raises KeyError. -/
def alistLookup {α : Type} : List (String × α) → String → Option α
  | [], _ => none
  | (k2, v2) :: rest, k => if k2 = k then some v2 else alistLookup rest k

theorem alistLookup_set_self {α : Type} (m : List (String × α)) (k : String) (v : α) :
    alistLookup (alistSet m k v) k = some v := by
  induction m with
  | nil => simp [alistSet, alistLookup]
  | cons hd tl ih =>
      obtain ⟨k2, v2⟩ := hd
      by_cases h : k2 = k <;> simp [alistSet, alistLookup, h, ih]

theorem alistLookup_set_ne {α : Type} (m : List (String × α)) (k k2 : String) (v : α)
    (h : k2 ≠ k) : alistLookup (alistSet m k v) k2 = alistLookup m k2 := by
  have hk : k ≠ k2 := fun hh => h hh.symm
  induction m with
  | nil => simp [alistSet, alistLookup, hk]
  | cons hd tl ih =>
      obtain ⟨k3, v3⟩ := hd
      by_cases h3 : k3 = k
      · subst h3
        simp [alistSet, alistLookup, hk]
      · simp [alistSet, alistLookup, h3, ih]

/-- A component's results dictionary: key-value pairs, as written by
`run_component()` into `self.results`. -/
abbrev RMap := List (String × Val)

/-- The contents of `self.results` right after `ComponentBase.__init__`
(components.py 138-140): `self.results = {}` then `self.results["changed"] = 1`. -/
def baseInitResults : RMap := alistSet [] "changed" (Val.vInt 1)

/-- The behavior of one execution of a component's `run_component()` method:
`out` is the contents of `self.results` at the moment `run_component`
returns or raises, and `signal` is either the integer return value or the
(message of the) exception it raised. -/
instance instDecEqExcept {ε α : Type} [DecidableEq ε] [DecidableEq α] :
    DecidableEq (Except ε α) := fun x y =>
  match x, y with
  | Except.ok a, Except.ok b =>
      if h : a = b then isTrue (by rw [h])
      else isFalse (by intro hh; cases hh; exact h rfl)
  | Except.ok _, Except.error _ => isFalse (by intro hh; cases hh)
  | Except.error _, Except.ok _ => isFalse (by intro hh; cases hh)
  | Except.error e, Except.error f =>
      if h : e = f then isTrue (by rw [h])
      else isFalse (by intro hh; cases hh; exact h rfl)

structure Work where
  out : RMap
  signal : Except String Int
deriving DecidableEq

/-- The status value `run_component_wrapper` (components.py 176-191) stores:
1 when `run_component()` returned 0, and 2 when it returned nonzero (the
wrapper raises `RuntimeError` for it) or raised an exception. -/
def Work.retStatus (w : Work) : Nat :=
  match w.signal with
  | Except.ok rv => if rv = 0 then 1 else 2
  | Except.error _ => 2

/-- The exception that propagates out of `run_component_wrapper` into the
component's own thread: the wrapper's `except: self.status = 2; raise`
re-raises the original exception, and a nonzero return value rv is first
turned into the `RuntimeError` of components.py 181, whose message is the
class name followed by `:  run_component returned error code rv`
(components.py 179-188).  `none` means a clean return: nothing escapes. -/
def Work.escaped (c : String) (w : Work) : Option String :=
  match w.signal with
  | Except.ok rv =>
      if rv = 0 then none
      else some (c ++ ":  run_component returned error code " ++ toString rv)
  | Except.error e => some e

theorem retStatus_cases (w : Work) : w.retStatus = 1 ∨ w.retStatus = 2 := by
  unfold Work.retStatus
  cases w.signal with
  | ok rv => by_cases h : rv = 0 <;> simp [h]
  | error e => simp

theorem retStatus_ne_zero (w : Work) : w.retStatus ≠ 0 := by
  rcases retStatus_cases w with h | h <;> rw [h] <;> decide

theorem retStatus_eq_two_of_error (out : RMap) (e : String) :
    (Work.mk out (Except.error e)).retStatus = 2 := rfl

/-! ### The condition-variable protocol of `run_component_wrapper` and `fetch`

One system = one component (task) together with the threads interacting
with its condition variable: the single runner thread spawned by `run()`
(components.py 144-149) and `n` consumer threads, each executing one call
of `fetch()`.  The lock is implicit: exactly the runner in its `running`
phase and a fetcher in its `locked` phase hold it, so a step that acquires
the lock is guarded by `lockFree`. -/

/-- Program counter of the runner thread executing `run_component_wrapper`:
`idle` before the `with self.condition` block, `running` while it holds the
lock executing `run_component()`, `done` after it stored the status,
called `notify_all()` and released the lock (one atomic step here, since
all of it happens before any other thread can take the lock). -/
inductive RunnerPC where
  | idle
  | running
  | done
deriving DecidableEq, Repr

/-- Program counter of one consumer thread executing `fetch()`
(components.py 193-219): `start` before the `with self.condition` block;
`locked` holding the lock, about to test `self.status == 0`;
`waiting` suspended inside `self.condition.wait()`;
`notified` woken by `notify_all()`, waiting to reacquire and release the
lock; `unlocked` after the `with` block, about to test `self.status != 1`;
`fdone o` returned (`o = Except.ok results`) or raised (`o = Except.error`). -/
inductive FetchPC where
  | start
  | locked
  | waiting
  | notified
  | unlocked
  | fdone (o : Except String RMap)
deriving DecidableEq

/-- The state of one component and of the threads touching its condition
variable: the `status` indicator (0 not yet run, 1 complete, 2 error,
components.py 137), the `results` dictionary, and the two kinds of
program counters. -/
structure Sys (n : Nat) where
  status : Nat
  results : RMap
  runner : RunnerPC
  fetchers : Fin n → FetchPC

/-- The condition lock is free: no thread is in a lock-holding phase. -/
def lockFree {n : Nat} (s : Sys n) : Prop :=
  s.runner ≠ RunnerPC.running ∧ ∀ i, s.fetchers i ≠ FetchPC.locked

instance {n : Nat} (s : Sys n) : Decidable (lockFree s) := by
  unfold lockFree; infer_instance

/-- The message of the `RuntimeError` that `fetch` raises when the status
is not 1 (components.py 217): it names the component's class and nothing
else — in particular not the error that made the run fail. -/
def failMsg (c : String) : String :=
  c ++ ": wait() returned with non-success status!"

/-- The outcome every `fetch()` call settles on once the component with
class name `c` and work behavior `w` has terminated: the published results
on success, the `RuntimeError` of components.py 217 otherwise. -/
def finalOutcome (c : String) (w : Work) : Except String RMap :=
  if w.retStatus = 1 then Except.ok w.out else Except.error (failMsg c)

/-- The state right after `ComponentBase.__init__` and `run()` spawned the
thread: status 0, the initial results dictionary, runner not yet holding
the lock, every consumer before its `with self.condition`. -/
def initSys (n : Nat) (r0 : RMap) : Sys n :=
  { status := 0, results := r0, runner := RunnerPC.idle,
    fetchers := fun _ => FetchPC.start }

/-- Small-step interleaving semantics of the monitor.  `c` is the
component's class name, `w` the behavior of its `run_component()` body.

* `runStart`: the runner enters `with self.condition` (components.py 176).
* `runFinish`: holding the lock, `run_component()` ran (writing `w.out`
  into `self.results`), the wrapper stored status 1 or 2, called
  `notify_all()` (moving every `waiting` consumer to `notified`) and
  released the lock (components.py 177-191).  This is one step because the
  lock is held throughout: no other thread can interleave an observation.
* `fetchStart`: a consumer enters `with self.condition` (components.py 208).
* `fetchWait`: holding the lock and seeing status 0, the consumer calls
  `self.condition.wait()`, releasing the lock (components.py 209-211).
* `fetchSkip`: holding the lock and seeing a nonzero status, the consumer
  leaves the `with` block, releasing the lock (components.py 212).
* `fetchWake`: a notified consumer reacquires the lock inside `wait()` and
  immediately leaves the `with` block, releasing it again.
* `fetchReturn`: past the `with` block, the consumer reads `self.status`
  and either raises the `RuntimeError` or returns `self.results`
  (components.py 216-219). -/
inductive Step (c : String) (w : Work) {n : Nat} : Sys n → Sys n → Prop where
  | runStart (s : Sys n) (hl : lockFree s) (h : s.runner = RunnerPC.idle) :
      Step c w s { s with runner := RunnerPC.running }
  | runFinish (s : Sys n) (h : s.runner = RunnerPC.running) :
      Step c w s
        { status := w.retStatus, results := w.out, runner := RunnerPC.done,
          fetchers := fun i =>
            if s.fetchers i = FetchPC.waiting then FetchPC.notified
            else s.fetchers i }
  | fetchStart (s : Sys n) (i : Fin n) (hl : lockFree s)
      (h : s.fetchers i = FetchPC.start) :
      Step c w s { s with fetchers := Function.update s.fetchers i FetchPC.locked }
  | fetchWait (s : Sys n) (i : Fin n) (h : s.fetchers i = FetchPC.locked)
      (hst : s.status = 0) :
      Step c w s { s with fetchers := Function.update s.fetchers i FetchPC.waiting }
  | fetchSkip (s : Sys n) (i : Fin n) (h : s.fetchers i = FetchPC.locked)
      (hst : s.status ≠ 0) :
      Step c w s { s with fetchers := Function.update s.fetchers i FetchPC.unlocked }
  | fetchWake (s : Sys n) (i : Fin n) (hl : lockFree s)
      (h : s.fetchers i = FetchPC.notified) :
      Step c w s { s with fetchers := Function.update s.fetchers i FetchPC.unlocked }
  | fetchReturn (s : Sys n) (i : Fin n) (h : s.fetchers i = FetchPC.unlocked) :
      Step c w s
        { s with fetchers :=
            (Function.update s.fetchers i
              (FetchPC.fdone
                (if s.status = 1 then Except.ok s.results
                 else Except.error (failMsg c)))) }

/-- Reachability from the freshly initialized component. -/
def Reach (c : String) (w : Work) (r0 : RMap) {n : Nat} (s : Sys n) : Prop :=
  Relation.ReflTransGen (Step c w) (initSys n r0) s

/-- The protocol invariant: before the runner finishes, the status is 0,
the results are the initial dictionary, and every consumer is on the
pre-publication side of the protocol; after it finishes, status and results
are the published ones, nobody is left waiting, and every finished fetch
carries the unique final outcome. -/
structure Inv (c : String) (w : Work) (r0 : RMap) {n : Nat} (s : Sys n) : Prop where
  done_pub : s.runner = RunnerPC.done → s.status = w.retStatus ∧ s.results = w.out
  done_nowait : s.runner = RunnerPC.done → ∀ i, s.fetchers i ≠ FetchPC.waiting
  pre_run : s.runner ≠ RunnerPC.done →
    s.status = 0 ∧ s.results = r0 ∧
    ∀ i, s.fetchers i = FetchPC.start ∨ s.fetchers i = FetchPC.locked ∨
      s.fetchers i = FetchPC.waiting
  done_out : ∀ i o, s.fetchers i = FetchPC.fdone o → o = finalOutcome c w

theorem inv_step {c : String} {w : Work} {r0 : RMap} {n : Nat} {s s2 : Sys n}
    (hinv : Inv c w r0 s) (hstep : Step c w s s2) : Inv c w r0 s2 := by
  cases hstep with
  | runStart hl h =>
      refine ⟨?_, ?_, ?_, ?_⟩
      · intro hd; simp at hd
      · intro hd; simp at hd
      · intro _
        have hnd : s.runner ≠ RunnerPC.done := by rw [h]; decide
        exact hinv.pre_run hnd
      · exact hinv.done_out
  | runFinish h =>
      have hnd : s.runner ≠ RunnerPC.done := by rw [h]; decide
      obtain ⟨hst0, hres0, hpcs⟩ := hinv.pre_run hnd
      refine ⟨fun _ => ⟨rfl, rfl⟩, ?_, fun hd => absurd rfl hd, ?_⟩
      · intro _ i
        show ¬ (if s.fetchers i = FetchPC.waiting then FetchPC.notified
                else s.fetchers i) = FetchPC.waiting
        by_cases hw : s.fetchers i = FetchPC.waiting <;> simp [hw]
      · intro i o hio
        have hio2 : (if s.fetchers i = FetchPC.waiting then FetchPC.notified
            else s.fetchers i) = FetchPC.fdone o := hio
        rcases hpcs i with hp | hp | hp <;> simp [hp] at hio2
  | fetchStart i hl h =>
      refine ⟨hinv.done_pub, ?_, ?_, ?_⟩
      · intro hd j
        show ¬ Function.update s.fetchers i FetchPC.locked j = FetchPC.waiting
        rcases eq_or_ne j i with rfl | hne
        · rw [Function.update_same]; simp
        · rw [Function.update_noteq hne]
          exact hinv.done_nowait hd j
      · intro hnd
        obtain ⟨hst0, hres0, hpcs⟩ := hinv.pre_run hnd
        refine ⟨hst0, hres0, ?_⟩
        intro j
        show Function.update s.fetchers i FetchPC.locked j = FetchPC.start ∨
          Function.update s.fetchers i FetchPC.locked j = FetchPC.locked ∨
          Function.update s.fetchers i FetchPC.locked j = FetchPC.waiting
        rcases eq_or_ne j i with rfl | hne
        · rw [Function.update_same]; exact Or.inr (Or.inl rfl)
        · rw [Function.update_noteq hne]; exact hpcs j
      · intro j o hjo
        have hjo2 : Function.update s.fetchers i FetchPC.locked j = FetchPC.fdone o := hjo
        rcases eq_or_ne j i with rfl | hne
        · rw [Function.update_same] at hjo2; cases hjo2
        · rw [Function.update_noteq hne] at hjo2; exact hinv.done_out j o hjo2
  | fetchWait i h hst =>
      have hnd : s.runner ≠ RunnerPC.done := by
        intro hd
        have h2 := (hinv.done_pub hd).1
        rw [hst] at h2
        exact retStatus_ne_zero w h2.symm
      obtain ⟨hst0, hres0, hpcs⟩ := hinv.pre_run hnd
      refine ⟨fun hd => absurd hd hnd, fun hd => absurd hd hnd, ?_, ?_⟩
      · intro _
        refine ⟨hst0, hres0, ?_⟩
        intro j
        show Function.update s.fetchers i FetchPC.waiting j = FetchPC.start ∨
          Function.update s.fetchers i FetchPC.waiting j = FetchPC.locked ∨
          Function.update s.fetchers i FetchPC.waiting j = FetchPC.waiting
        rcases eq_or_ne j i with rfl | hne
        · rw [Function.update_same]; exact Or.inr (Or.inr rfl)
        · rw [Function.update_noteq hne]; exact hpcs j
      · intro j o hjo
        have hjo2 : Function.update s.fetchers i FetchPC.waiting j = FetchPC.fdone o := hjo
        rcases eq_or_ne j i with rfl | hne
        · rw [Function.update_same] at hjo2; cases hjo2
        · rw [Function.update_noteq hne] at hjo2; exact hinv.done_out j o hjo2
  | fetchSkip i h hst =>
      have hd : s.runner = RunnerPC.done := by
        by_contra hnd
        exact hst (hinv.pre_run hnd).1
      refine ⟨fun _ => hinv.done_pub hd, ?_, fun hnd => absurd hd hnd, ?_⟩
      · intro _ j
        show ¬ Function.update s.fetchers i FetchPC.unlocked j = FetchPC.waiting
        rcases eq_or_ne j i with rfl | hne
        · rw [Function.update_same]; simp
        · rw [Function.update_noteq hne]; exact hinv.done_nowait hd j
      · intro j o hjo
        have hjo2 : Function.update s.fetchers i FetchPC.unlocked j = FetchPC.fdone o := hjo
        rcases eq_or_ne j i with rfl | hne
        · rw [Function.update_same] at hjo2; cases hjo2
        · rw [Function.update_noteq hne] at hjo2; exact hinv.done_out j o hjo2
  | fetchWake i hl h =>
      have hd : s.runner = RunnerPC.done := by
        by_contra hnd
        rcases (hinv.pre_run hnd).2.2 i with hp | hp | hp <;> rw [h] at hp <;> cases hp
      refine ⟨fun _ => hinv.done_pub hd, ?_, fun hnd => absurd hd hnd, ?_⟩
      · intro _ j
        show ¬ Function.update s.fetchers i FetchPC.unlocked j = FetchPC.waiting
        rcases eq_or_ne j i with rfl | hne
        · rw [Function.update_same]; simp
        · rw [Function.update_noteq hne]; exact hinv.done_nowait hd j
      · intro j o hjo
        have hjo2 : Function.update s.fetchers i FetchPC.unlocked j = FetchPC.fdone o := hjo
        rcases eq_or_ne j i with rfl | hne
        · rw [Function.update_same] at hjo2; cases hjo2
        · rw [Function.update_noteq hne] at hjo2; exact hinv.done_out j o hjo2
  | fetchReturn i h =>
      have hd : s.runner = RunnerPC.done := by
        by_contra hnd
        rcases (hinv.pre_run hnd).2.2 i with hp | hp | hp <;> rw [h] at hp <;> cases hp
      obtain ⟨hstat, hres⟩ := hinv.done_pub hd
      refine ⟨fun _ => ⟨hstat, hres⟩, ?_, fun hnd => absurd hd hnd, ?_⟩
      · intro _ j
        show ¬ Function.update s.fetchers i
          (FetchPC.fdone (if s.status = 1 then Except.ok s.results
            else Except.error (failMsg c))) j = FetchPC.waiting
        rcases eq_or_ne j i with rfl | hne
        · rw [Function.update_same]; simp
        · rw [Function.update_noteq hne]; exact hinv.done_nowait hd j
      · intro j o hjo
        have hjo2 : Function.update s.fetchers i
            (FetchPC.fdone (if s.status = 1 then Except.ok s.results
              else Except.error (failMsg c))) j = FetchPC.fdone o := hjo
        rcases eq_or_ne j i with rfl | hne
        · rw [Function.update_same] at hjo2
          injection hjo2 with ho
          rw [← ho, hstat, hres]
          rfl
        · rw [Function.update_noteq hne] at hjo2; exact hinv.done_out j o hjo2

theorem inv_init (c : String) (w : Work) (r0 : RMap) (n : Nat) :
    Inv c w r0 (initSys n r0) := by
  refine ⟨?_, ?_, ?_, ?_⟩
  · intro hd; simp [initSys] at hd
  · intro hd; simp [initSys] at hd
  · intro _
    exact ⟨rfl, rfl, fun i => Or.inl rfl⟩
  · intro i o hio
    simp [initSys] at hio

theorem reach_inv {c : String} {w : Work} {r0 : RMap} {n : Nat} {s : Sys n}
    (hs : Reach c w r0 s) : Inv c w r0 s := by
  induction hs with
  | refl => exact inv_init c w r0 n
  | tail hr hstep ih => exact inv_step ih hstep

/-- Once the runner has published, no step moves it back, and neither the
status indicator nor the results dictionary ever changes again. -/
theorem step_runner_done {c : String} {w : Work} {n : Nat} {s s2 : Sys n}
    (hstep : Step c w s s2) (hd : s.runner = RunnerPC.done) :
    s2.runner = RunnerPC.done ∧ s2.status = s.status ∧ s2.results = s.results := by
  cases hstep with
  | runStart hl h => rw [h] at hd; cases hd
  | runFinish h => rw [h] at hd; cases hd
  | fetchStart i hl h => exact ⟨hd, rfl, rfl⟩
  | fetchWait i h hst => exact ⟨hd, rfl, rfl⟩
  | fetchSkip i h hst => exact ⟨hd, rfl, rfl⟩
  | fetchWake i hl h => exact ⟨hd, rfl, rfl⟩
  | fetchReturn i h => exact ⟨hd, rfl, rfl⟩

theorem reachFrom_done {c : String} {w : Work} {n : Nat} {s s2 : Sys n}
    (htr : Relation.ReflTransGen (Step c w) s s2) (hd : s.runner = RunnerPC.done) :
    s2.runner = RunnerPC.done ∧ s2.status = s.status ∧ s2.results = s.results := by
  induction htr with
  | refl => exact ⟨hd, rfl, rfl⟩
  | tail hr hstep ih =>
      obtain ⟨d2, st2, res2⟩ := ih
      obtain ⟨d3, st3, res3⟩ := step_runner_done hstep d2
      exact ⟨d3, st3.trans st2, res3.trans res2⟩

/-- A consumer that has finished its `fetch()` call never moves again:
the call returned or raised exactly once. -/
theorem step_fdone_absorbing {c : String} {w : Work} {n : Nat} {s s2 : Sys n}
    (hstep : Step c w s s2) (i : Fin n) (o : Except String RMap)
    (h : s.fetchers i = FetchPC.fdone o) : s2.fetchers i = FetchPC.fdone o := by
  cases hstep with
  | runStart hl hr => exact h
  | runFinish hr =>
      show (if s.fetchers i = FetchPC.waiting then FetchPC.notified
            else s.fetchers i) = FetchPC.fdone o
      simp [h]
  | fetchStart j hl hj =>
      show Function.update s.fetchers j FetchPC.locked i = FetchPC.fdone o
      rcases eq_or_ne i j with rfl | hne
      · rw [h] at hj; cases hj
      · rw [Function.update_noteq hne]; exact h
  | fetchWait j hj hst =>
      show Function.update s.fetchers j FetchPC.waiting i = FetchPC.fdone o
      rcases eq_or_ne i j with rfl | hne
      · rw [h] at hj; cases hj
      · rw [Function.update_noteq hne]; exact h
  | fetchSkip j hj hst =>
      show Function.update s.fetchers j FetchPC.unlocked i = FetchPC.fdone o
      rcases eq_or_ne i j with rfl | hne
      · rw [h] at hj; cases hj
      · rw [Function.update_noteq hne]; exact h
  | fetchWake j hl hj =>
      show Function.update s.fetchers j FetchPC.unlocked i = FetchPC.fdone o
      rcases eq_or_ne i j with rfl | hne
      · rw [h] at hj; cases hj
      · rw [Function.update_noteq hne]; exact h
  | fetchReturn j hj =>
      show Function.update s.fetchers j
        (FetchPC.fdone (if s.status = 1 then Except.ok s.results
          else Except.error (failMsg c))) i = FetchPC.fdone o
      rcases eq_or_ne i j with rfl | hne
      · rw [h] at hj; cases hj
      · rw [Function.update_noteq hne]; exact h

/-- Number of protocol steps a consumer still has before its `fetch()`
call finishes (used to show that, after the runner publishes, every
blocked consumer is released). -/
def pcMeasure : FetchPC → Nat
  | FetchPC.start => 3
  | FetchPC.locked => 2
  | FetchPC.waiting => 4
  | FetchPC.notified => 2
  | FetchPC.unlocked => 1
  | FetchPC.fdone _ => 0

def sysMeasure {n : Nat} (s : Sys n) : Nat :=
  Finset.univ.sum (fun i => pcMeasure (s.fetchers i))

theorem pcMeasure_eq_zero {p : FetchPC} (h : pcMeasure p = 0) :
    ∃ o, p = FetchPC.fdone o := by
  cases p with
  | start => simp [pcMeasure] at h
  | locked => simp [pcMeasure] at h
  | waiting => simp [pcMeasure] at h
  | notified => simp [pcMeasure] at h
  | unlocked => simp [pcMeasure] at h
  | fdone o => exact ⟨o, rfl⟩

theorem sysMeasure_update {n : Nat} (s : Sys n) (i : Fin n) (p : FetchPC)
    (h : pcMeasure p < pcMeasure (s.fetchers i)) :
    sysMeasure { s with fetchers := Function.update s.fetchers i p } < sysMeasure s := by
  show Finset.univ.sum (fun j => pcMeasure (Function.update s.fetchers i p j)) <
    Finset.univ.sum (fun j => pcMeasure (s.fetchers j))
  have h1 : (fun j => pcMeasure (Function.update s.fetchers i p j)) =
      Function.update (fun j => pcMeasure (s.fetchers j)) i (pcMeasure p) := by
    funext j
    rcases eq_or_ne j i with rfl | hne
    · rw [Function.update_same, Function.update_same]
    · rw [Function.update_noteq hne, Function.update_noteq hne]
  calc Finset.univ.sum (fun j => pcMeasure (Function.update s.fetchers i p j))
      = Finset.univ.sum (Function.update (fun j => pcMeasure (s.fetchers j)) i
          (pcMeasure p)) := by rw [h1]
    _ = pcMeasure p + (Finset.univ \ {i}).sum (fun j => pcMeasure (s.fetchers j)) :=
        Finset.sum_update_of_mem (Finset.mem_univ i) _ _
    _ < pcMeasure (s.fetchers i) +
          (Finset.univ \ {i}).sum (fun j => pcMeasure (s.fetchers j)) :=
        Nat.add_lt_add_right h _
    _ = pcMeasure (s.fetchers i) +
          (Finset.univ.erase i).sum (fun j => pcMeasure (s.fetchers j)) := by
        rw [Finset.sdiff_singleton_eq_erase]
    _ = Finset.univ.sum (fun j => pcMeasure (s.fetchers j)) :=
        Finset.add_sum_erase Finset.univ (fun j => pcMeasure (s.fetchers j))
          (Finset.mem_univ i)

/-- After the runner has published, every consumer whose `fetch()` call is
still in flight can take a step, and the step brings it closer to
finishing: nobody is stuck (no lost wakeup, no deadlock on this condition
variable). -/
theorem drain_step (c : String) (w : Work) (r0 : RMap) {n : Nat} (s : Sys n)
    (hinv : Inv c w r0 s) (hd : s.runner = RunnerPC.done)
    (i : Fin n) (hi : pcMeasure (s.fetchers i) ≠ 0) :
    ∃ s2, Step c w s s2 ∧ sysMeasure s2 < sysMeasure s := by
  have hst : s.status ≠ 0 := by
    rw [(hinv.done_pub hd).1]; exact retStatus_ne_zero w
  by_cases hlocked : ∃ j, s.fetchers j = FetchPC.locked
  · obtain ⟨j, hj⟩ := hlocked
    refine ⟨_, Step.fetchSkip s j hj hst, ?_⟩
    apply sysMeasure_update
    rw [hj]
    simp [pcMeasure]
  · have hlf : lockFree s := by
      constructor
      · rw [hd]; decide
      · intro j hj; exact hlocked ⟨j, hj⟩
    have hnw := hinv.done_nowait hd i
    cases hpc : s.fetchers i with
    | start =>
        refine ⟨_, Step.fetchStart s i hlf hpc, ?_⟩
        apply sysMeasure_update
        rw [hpc]
        simp [pcMeasure]
    | locked => exact absurd ⟨i, hpc⟩ hlocked
    | waiting => exact absurd hpc hnw
    | notified =>
        refine ⟨_, Step.fetchWake s i hlf hpc, ?_⟩
        apply sysMeasure_update
        rw [hpc]
        simp [pcMeasure]
    | unlocked =>
        refine ⟨_, Step.fetchReturn s i hpc, ?_⟩
        apply sysMeasure_update
        rw [hpc]
        simp [pcMeasure]
    | fdone o =>
        rw [hpc] at hi
        simp [pcMeasure] at hi

/-- From any published state, the system can always run until every
consumer has finished its `fetch()` call, all with the same final
outcome. -/
theorem drain_all (c : String) (w : Work) (r0 : RMap) {n : Nat} :
    ∀ m : Nat, ∀ s : Sys n, sysMeasure s ≤ m → Inv c w r0 s →
      s.runner = RunnerPC.done →
      ∃ s2, Relation.ReflTransGen (Step c w) s s2 ∧
        ∀ i, s2.fetchers i = FetchPC.fdone (finalOutcome c w) := by
  intro m
  induction m with
  | zero =>
      intro s hle hinv hd
      have hle2 : Finset.univ.sum (fun j => pcMeasure (s.fetchers j)) ≤ 0 := hle
      refine ⟨s, Relation.ReflTransGen.refl, ?_⟩
      intro i
      have hz : pcMeasure (s.fetchers i) = 0 :=
        Nat.eq_zero_of_le_zero
          (le_trans
            (Finset.single_le_sum (f := fun j => pcMeasure (s.fetchers j))
              (fun j _ => Nat.zero_le _) (Finset.mem_univ i)) hle2)
      obtain ⟨o, ho⟩ := pcMeasure_eq_zero hz
      rw [ho, hinv.done_out i o ho]
  | succ m ih =>
      intro s hle hinv hd
      by_cases hz : ∀ i, pcMeasure (s.fetchers i) = 0
      · refine ⟨s, Relation.ReflTransGen.refl, ?_⟩
        intro i
        obtain ⟨o, ho⟩ := pcMeasure_eq_zero (hz i)
        rw [ho, hinv.done_out i o ho]
      · push_neg at hz
        obtain ⟨i, hi⟩ := hz
        obtain ⟨s2, hstep, hlt⟩ := drain_step c w r0 s hinv hd i hi
        have hle2 : sysMeasure s2 ≤ m := by omega
        obtain ⟨s3, htr, hfin⟩ :=
          ih s2 hle2 (inv_step hinv hstep) (step_runner_done hstep hd).1
        exact ⟨s3, Relation.ReflTransGen.head hstep htr, hfin⟩

/-! ### The capability table

`cap_tbl` is a plain Python dictionary shared by all components.  Each
component registers itself in its `__init__` by dictionary assignment,
e.g. `cap_tbl["gcam-core"] = self` (components.py 350), and resolves a
capability by dictionary subscript, e.g. `self.cap_tbl['general']`
(components.py 611), which raises `KeyError` when the name was never
registered.  Components are identified here by a numeric id. -/

/-- The shared capability table: capability name to component id. -/
abbrev CapTbl := List (String × Nat)

/-- Registration as each component's `__init__` performs it:
`cap_tbl[name] = self`, a plain dict assignment (components.py 350, 487,
671, 828, 1044, 301). -/
def registerCap (tbl : CapTbl) (name : String) (comp : Nat) : CapTbl :=
  alistSet tbl name comp

/-- Capability resolution as the components perform it:
`self.cap_tbl[name]`, a plain dict subscript that raises `KeyError` when
the name is absent (this `KeyError` is what the design calls
`UnknownCapability`). -/
def resolveCap (tbl : CapTbl) (name : String) : Except String Nat :=
  match alistLookup tbl name with
  | some comp => Except.ok comp
  | none => Except.error ("KeyError: " ++ name)

/-- The combined expression `self.cap_tbl[name].fetch()` (components.py
611, 847-848, 857): the subscript is evaluated first; only if it succeeds
is `fetch()` — the only blocking operation — entered.  `fetchOf` maps a
component id to the behavior of its `fetch()` call. -/
def resolveFetch (tbl : CapTbl) (name : String)
    (fetchOf : Nat → Except String RMap) : Except String RMap :=
  match resolveCap tbl name with
  | Except.error e => Except.error e
  | Except.ok comp => fetchOf comp

/-! ### The driver's main loop

gcam_driver.py `__main__` (lines 92-123): start every component's thread
with `threads.append(component.run())`, join all of them, then count the
components with `component.status != 1` and print the count; nothing is
raised.  The loop is embedded as a total function over the list of the
components' work behaviors: each thread's terminal status is
`Work.retStatus` (established against the transition system by the per-
component run theorem below). -/

/-- `threads = [component.run() for component in component_list]` followed
by `thread.join()` on each: the list of terminal statuses, one handle per
component, in order. -/
def runThreads (ws : List Work) : List Nat :=
  ws.map Work.retStatus

/-- `fail = 0; for component in component_list: if component.status != 1:
fail += 1` (gcam_driver.py 114-118). -/
def countFailed (statuses : List Nat) : Nat :=
  (statuses.filter (fun st => st ≠ 1)).length

/-- The whole `__main__` aggregation: the number of handles collected and
the failing-component count that the final message reports.  A total
function: the driver raises nothing at this layer. -/
def engineRun (ws : List Work) : Nat × Nat :=
  let threads := runThreads ws
  (threads.length, countFailed threads)

/-! ### GlobalParamsComponent

`GlobalParamsComponent.__init__` (components.py 287-305) runs the base
`__init__` and then executes `self.results = self.params`: a reference
copy, so the results and params dictionaries are one and the same object
afterwards (and the base class's `results` with its `changed` entry is
discarded).  Its state is therefore a single store. -/

structure GPState where
  store : RMap
deriving DecidableEq

/-- The single shared dictionary seen as `self.results`. -/
def gpResults (s : GPState) : RMap := s.store

/-- The single shared dictionary seen as `self.params`. -/
def gpParams (s : GPState) : RMap := s.store

/-- State after `GlobalParamsComponent.__init__`: `params` is empty and
`results` aliases it, so the `changed` entry the base init wrote is gone. -/
def gpInit : GPState := ⟨[]⟩

/-- `addparam` (components.py 237-245): `self.params[key] = value`.
Because of the reference copy the same entry is visible in `results`. -/
def gpAddparam (s : GPState) (k : String) (v : Val) : GPState :=
  ⟨alistSet s.store k v⟩

/-- Modelled from the spec: `util.abspath` (util.py is not among the
sources; only its call sites are).  Per the GlobalParamsComponent
docstring (components.py 271-283): a path that already starts with a
slash is absolute and kept; a relative path — with or without a leading
"./" — is interpreted relative to the given base directory. -/
def abspath (p : String) (base : String) : String :=
  if p.data.head? = some '/' then p
  else base ++ "/" ++ (match p.data with
    | '.' :: '/' :: rest => String.mk rest
    | _ => p)

/-- String-valued dictionary lookup (config parameters are strings). -/
def lookupStr (m : RMap) (k : String) : Option String :=
  match alistLookup m k with
  | some (Val.vStr s) => some s
  | _ => none

/-- `GlobalParamsComponent.run_component` (components.py 307-325):
convert `ModelInterface` and `DBXMLlib` to absolute paths in place,
default `inputdir` to `./input-data` and `rgnconfig` to `rgn14` when
absent, store both as absolute paths (`rgnconfig` resolved against the
just-stored absolute `inputdir`), and return 0.  The subscripts
`self.results['ModelInterface']` and `self.results['DBXMLlib']` raise
`KeyError` when absent. -/
def gpRun (cwd : String) (s : GPState) : Except String (GPState × Int) :=
  match lookupStr s.store "ModelInterface" with
  | none => Except.error "KeyError: ModelInterface"
  | some mi =>
    match lookupStr s.store "DBXMLlib" with
    | none => Except.error "KeyError: DBXMLlib"
    | some db =>
      let r1 := alistSet s.store "ModelInterface" (Val.vStr (abspath mi cwd))
      let r2 := alistSet r1 "DBXMLlib" (Val.vStr (abspath db cwd))
      let inputdir :=
        match lookupStr r2 "inputdir" with
        | some d => d
        | none => "./input-data"
      let r3 := alistSet r2 "inputdir" (Val.vStr (abspath inputdir cwd))
      let rgnconfig :=
        match lookupStr r3 "rgnconfig" with
        | some d => d
        | none => "rgn14"
      let r4 := alistSet r3 "rgnconfig"
        (Val.vStr (abspath rgnconfig (abspath inputdir cwd)))
      Except.ok (⟨r4⟩, 0)

/-! ### The cached-result (`changed`) logic of the task bodies -/

/-- `util.allexist` as used by the hydrology components: all the listed
files exist. -/
def allexist (fileOk : String → Bool) (files : List String) : Bool :=
  files.all fileOk

/-- The output-cache check of `GcamComponent.run_component`
(components.py 411-422): store the dbxml location in the results, and if
the dbxml file already exists and `clobber` is not set, mark the cached
results clean (`changed = 0`) and return 0, skipping the run; otherwise
(second component `none`) the run continues.  `fileOk` stands for
`os.path.exists`. -/
def gcamCheckOutputs (fileOk : String → Bool) (clobber : Bool)
    (dbxmlfile : String) (res : RMap) : RMap × Option Int :=
  let res1 := alistSet res "dbxml" (Val.vStr dbxmlfile)
  if fileOk dbxmlfile then
    if !clobber then (alistSet res1 "changed" (Val.vInt 0), some 0)
    else (res1, none)
  else (res1, none)

/-- The output-cache check of `HydroComponent.run_component`
(components.py 602-608): when `clobber` is not set and all expected
output files exist, mark the cached results clean and return 0, skipping
the run. -/
def hydroCheckOutputs (fileOk : String → Bool) (clobber : Bool)
    (allout : List String) (res : RMap) : RMap × Option Int :=
  if !clobber && allexist fileOk allout then
    (alistSet res "changed" (Val.vInt 0), some 0)
  else (res, none)

/-! ### Concrete executions used to instantiate the theorems -/

/-- A class-name stand-in. -/
def tcls : String := "HydroComponent"

/-- A successful work behavior: results fully written, return value 0. -/
def wOK : Work :=
  ⟨[("changed", Val.vInt 1), ("qoutfile", Val.vStr "/out/q.mat")], Except.ok 0⟩

/-- A failing work behavior: partial results, an exception raised. -/
def wErr : Work := ⟨[("partial", Val.vStr "x")], Except.error "disk failure"⟩

/-- Successful run, then one consumer fetches: the five intermediate
states of the execution. -/
def sysS0 : Sys 1 := initSys 1 baseInitResults

def sysS1 : Sys 1 := { sysS0 with runner := RunnerPC.running }

def sysS2 : Sys 1 :=
  { status := wOK.retStatus, results := wOK.out, runner := RunnerPC.done,
    fetchers := fun i =>
      if sysS1.fetchers i = FetchPC.waiting then FetchPC.notified
      else sysS1.fetchers i }

def sysS3 : Sys 1 :=
  { sysS2 with fetchers := Function.update sysS2.fetchers 0 FetchPC.locked }

def sysS4 : Sys 1 :=
  { sysS3 with fetchers := Function.update sysS3.fetchers 0 FetchPC.unlocked }

def sysS5 : Sys 1 :=
  { sysS4 with fetchers :=
      (Function.update sysS4.fetchers 0
        (FetchPC.fdone
          (if sysS4.status = 1 then Except.ok sysS4.results
           else Except.error (failMsg tcls)))) }

theorem reach_sysS5 : Reach tcls wOK baseInitResults sysS5 := by
  have h1 : Step tcls wOK sysS0 sysS1 := Step.runStart sysS0 (by decide) rfl
  have h2 : Step tcls wOK sysS1 sysS2 := Step.runFinish sysS1 rfl
  have h3 : Step tcls wOK sysS2 sysS3 := Step.fetchStart sysS2 0 (by decide) (by decide)
  have h4 : Step tcls wOK sysS3 sysS4 := Step.fetchSkip sysS3 0 (by decide) (by decide)
  have h5 : Step tcls wOK sysS4 sysS5 := Step.fetchReturn sysS4 0 (by decide)
  exact Relation.ReflTransGen.tail
    (Relation.ReflTransGen.tail
      (Relation.ReflTransGen.tail
        (Relation.ReflTransGen.tail
          (Relation.ReflTransGen.tail Relation.ReflTransGen.refl h1) h2) h3) h4) h5

/-- A consumer blocks first, then the run fails: the intermediate states. -/
def sysF0 : Sys 1 := initSys 1 baseInitResults

def sysF1 : Sys 1 :=
  { sysF0 with fetchers := Function.update sysF0.fetchers 0 FetchPC.locked }

def sysF2 : Sys 1 :=
  { sysF1 with fetchers := Function.update sysF1.fetchers 0 FetchPC.waiting }

def sysF3 : Sys 1 := { sysF2 with runner := RunnerPC.running }

def sysF4 : Sys 1 :=
  { status := wErr.retStatus, results := wErr.out, runner := RunnerPC.done,
    fetchers := fun i =>
      if sysF3.fetchers i = FetchPC.waiting then FetchPC.notified
      else sysF3.fetchers i }

theorem reach_sysF4 : Reach tcls wErr baseInitResults sysF4 := by
  have h1 : Step tcls wErr sysF0 sysF1 := Step.fetchStart sysF0 0 (by decide) (by decide)
  have h2 : Step tcls wErr sysF1 sysF2 := Step.fetchWait sysF1 0 (by decide) rfl
  have h3 : Step tcls wErr sysF2 sysF3 := Step.runStart sysF2 (by decide) rfl
  have h4 : Step tcls wErr sysF3 sysF4 := Step.runFinish sysF3 rfl
  exact Relation.ReflTransGen.tail
    (Relation.ReflTransGen.tail
      (Relation.ReflTransGen.tail
        (Relation.ReflTransGen.tail Relation.ReflTransGen.refl h1) h2) h3) h4

/-! ### The claims -/

/-- C1: for every task, whenever `fetch()` returns normally (with
`Except.ok`), the task's status is the terminal success value 1 and the
returned dictionary is exactly the fully populated one the work function
wrote before the future was published (the wrapper stores results and
status and wakes waiters in one lock-protected step); and in every
reachable state whose status is terminal, the corresponding results are
readable — no half-published result. -/
theorem c1_fetch_ok (c : String) (w : Work) (r0 : RMap) (n : Nat) (s : Sys n)
    (hs : Reach c w r0 s) (i : Fin n) (r : RMap)
    (h : s.fetchers i = FetchPC.fdone (Except.ok r)) :
    s.status = 1 ∧ r = w.out ∧ w.signal = Except.ok 0 ∧
    ∀ t : Sys n, Reach c w r0 t → t.status ≠ 0 → t.results = w.out := by
  have hinv := reach_inv hs
  have hout := hinv.done_out i (Except.ok r) h
  have hret : w.retStatus = 1 := by
    by_contra hr
    unfold finalOutcome at hout
    rw [if_neg hr] at hout
    cases hout
  have hro : r = w.out := by
    unfold finalOutcome at hout
    rw [if_pos hret] at hout
    injection hout with h2
  have hd : s.runner = RunnerPC.done := by
    by_contra hnd
    rcases (hinv.pre_run hnd).2.2 i with hp | hp | hp <;> rw [h] at hp <;> cases hp
  have hst : s.status = 1 := by rw [(hinv.done_pub hd).1, hret]
  have hsig : w.signal = Except.ok 0 := by
    cases hq : w.signal with
    | ok rv =>
        by_cases hz : rv = 0
        · rw [hz]
        · have h2 : w.retStatus = 2 := by simp [Work.retStatus, hq, hz]
          rw [h2] at hret
          exact absurd hret (by decide)
    | error e =>
        have h2 : w.retStatus = 2 := by simp [Work.retStatus, hq]
        rw [h2] at hret
        exact absurd hret (by decide)
  refine ⟨hst, hro, hsig, ?_⟩
  intro t ht hterm
  have hinv2 := reach_inv ht
  have hd2 : t.runner = RunnerPC.done := by
    by_contra hnd
    exact hterm (hinv2.pre_run hnd).1
  exact (hinv2.done_pub hd2).2

/-- Witness for C1: on the concrete completed execution the finished
fetch observed status 1 and the published results. -/
theorem c1_fetch_ok_witness :
    sysS5.status = 1 ∧ sysS5.results = wOK.out :=
  ⟨(c1_fetch_ok tcls wOK baseInitResults 1 sysS5 reach_sysS5 0 wOK.out (by decide)).1,
   (c1_fetch_ok tcls wOK baseInitResults 1 sysS5 reach_sysS5 0 wOK.out
      (by decide)).2.2.2 sysS5 reach_sysS5 (by decide)⟩

/-- C7: the status indicator always holds one of the three code values
0 (Pending), 1 (Succeeded), 2 (Failed); 0 is the initial value; the
single execution of the wrapper publishes exactly one of 1 or 2, the
value determined by the work function; and no step ever transitions the
status out of a terminal (nonzero) value. -/
theorem c7_lifecycle (c : String) (w : Work) (r0 : RMap) (n : Nat) :
    (initSys n r0).status = 0 ∧
    (∀ s : Sys n, Reach c w r0 s → s.status = 0 ∨ s.status = 1 ∨ s.status = 2) ∧
    (∀ s : Sys n, Reach c w r0 s → s.runner = RunnerPC.done →
      s.status = w.retStatus ∧ (w.retStatus = 1 ∨ w.retStatus = 2)) ∧
    (∀ s s2 : Sys n, Reach c w r0 s → Step c w s s2 → s.status ≠ 0 →
      s2.status = s.status) := by
  refine ⟨rfl, ?_, ?_, ?_⟩
  · intro s hs
    have hinv := reach_inv hs
    by_cases hd : s.runner = RunnerPC.done
    · rcases retStatus_cases w with h | h
      · exact Or.inr (Or.inl (by rw [(hinv.done_pub hd).1, h]))
      · exact Or.inr (Or.inr (by rw [(hinv.done_pub hd).1, h]))
    · exact Or.inl (hinv.pre_run hd).1
  · intro s hs hd
    exact ⟨((reach_inv hs).done_pub hd).1, retStatus_cases w⟩
  · intro s s2 hs hstep hne
    have hinv := reach_inv hs
    have hd : s.runner = RunnerPC.done := by
      by_contra hnd
      exact hne (hinv.pre_run hnd).1
    exact (step_runner_done hstep hd).2.1

/-- Witness for C7 on concrete states: the fresh component is Pending and
the completed one terminal. -/
theorem c7_lifecycle_witness :
    (initSys 1 baseInitResults).status = 0 ∧
    (sysS5.status = 0 ∨ sysS5.status = 1 ∨ sysS5.status = 2) :=
  ⟨(c7_lifecycle tcls wOK baseInitResults 1).1,
   (c7_lifecycle tcls wOK baseInitResults 1).2.1 sysS5 reach_sysS5⟩

/-- C9: once the runner publishes its single transition out of Pending,
no consumer is left in `wait()` (the `notify_all` under the lock woke
everyone), a finished `fetch()` call never takes another step (released
exactly once), any two finished calls observed the same outcome, and the
system can always run on until every one of the `n` concurrent callers
has finished with that same final outcome — no lost wakeups and no
partial delivery. -/
theorem c9_broadcast (c : String) (w : Work) (r0 : RMap) (n : Nat) (s : Sys n)
    (hs : Reach c w r0 s) (hd : s.runner = RunnerPC.done) :
    (∀ i, s.fetchers i ≠ FetchPC.waiting) ∧
    (∀ s2 i o, Step c w s s2 → s.fetchers i = FetchPC.fdone o →
      s2.fetchers i = FetchPC.fdone o) ∧
    (∀ i j oi oj, s.fetchers i = FetchPC.fdone oi →
      s.fetchers j = FetchPC.fdone oj → oi = oj) ∧
    (∃ s2, Relation.ReflTransGen (Step c w) s s2 ∧
      ∀ i, s2.fetchers i = FetchPC.fdone (finalOutcome c w)) := by
  have hinv := reach_inv hs
  refine ⟨hinv.done_nowait hd, ?_, ?_, ?_⟩
  · intro s2 i o hstep h
    exact step_fdone_absorbing hstep i o h
  · intro i j oi oj hi hj
    rw [hinv.done_out i oi hi, hinv.done_out j oj hj]
  · exact drain_all c w r0 (sysMeasure s) s le_rfl hinv hd

/-- Witness for C9 on the concrete failing execution with one blocked
consumer: after publication it is no longer waiting, and the execution
can be completed with every consumer finished on the common outcome. -/
theorem c9_broadcast_witness :
    sysF4.fetchers 0 ≠ FetchPC.waiting ∧
    (∃ s2, Relation.ReflTransGen (Step tcls wErr) sysF4 s2 ∧
      ∀ i, s2.fetchers i = FetchPC.fdone (finalOutcome tcls wErr)) :=
  ⟨(c9_broadcast tcls wErr baseInitResults 1 sysF4 reach_sysF4 rfl).1 0,
   (c9_broadcast tcls wErr baseInitResults 1 sysF4 reach_sysF4 rfl).2.2.2⟩

/-- C2 (amended): once a component's terminal status is the failure value
2, every `fetch()` call — concurrent or later — raises the same
`RuntimeError` built from the component's class name, to every caller;
the failure is sticky and replayable (the status stays 2 and the runner
never re-runs along any continuation); but the exception does not carry
the original error: it is `failMsg c`, built from the class name alone. -/
theorem c2_failed_sticky (c : String) (w : Work) (r0 : RMap) (n : Nat) (s : Sys n)
    (hs : Reach c w r0 s) (hfail : s.status = 2) :
    (∀ i o, s.fetchers i = FetchPC.fdone o → o = Except.error (failMsg c)) ∧
    (∀ s2 : Sys n, Relation.ReflTransGen (Step c w) s s2 →
      s2.status = 2 ∧ s2.runner = RunnerPC.done) ∧
    finalOutcome c w = Except.error (failMsg c) := by
  have hinv := reach_inv hs
  have hd : s.runner = RunnerPC.done := by
    by_contra hnd
    have h0 := (hinv.pre_run hnd).1
    rw [h0] at hfail
    exact absurd hfail (by decide)
  have hret : w.retStatus = 2 := by rw [← (hinv.done_pub hd).1]; exact hfail
  have hfo : finalOutcome c w = Except.error (failMsg c) := by
    unfold finalOutcome
    rw [hret]
    rw [if_neg (by decide)]
  refine ⟨?_, ?_, hfo⟩
  · intro i o hio
    rw [hinv.done_out i o hio, hfo]
  · intro s2 htr
    obtain ⟨hd2, hst2, _⟩ := reachFrom_done htr hd
    exact ⟨hst2.trans hfail, hd2⟩

/-- Witness for C2 on the concrete failed execution. -/
theorem c2_failed_sticky_witness :
    finalOutcome tcls wErr = Except.error (failMsg tcls) ∧
    sysF4.status = 2 :=
  ⟨(c2_failed_sticky tcls wErr baseInitResults 1 sysF4 reach_sysF4 rfl).2.2,
   ((c2_failed_sticky tcls wErr baseInitResults 1 sysF4 reach_sysF4 rfl).2.1
      sysF4 Relation.ReflTransGen.refl).1⟩

/-- C2 counterexample: two components whose work fails with different
original errors produce byte-identical `fetch()` failures — the
`RuntimeError` of components.py 217 is a fresh message built from the
class name only, so it cannot carry the original error and a consumer
cannot distinguish the causes through it; the claim that `fetch()` fails
with an error "carrying the original error" is false on the code. -/
theorem c2_error_not_carried :
    (Work.mk [] (Except.error "original error A")).signal ≠
      (Work.mk [] (Except.error "original error B")).signal ∧
    (Work.mk [] (Except.error "original error A")).retStatus = 2 ∧
    (Work.mk [] (Except.error "original error B")).retStatus = 2 ∧
    finalOutcome "GcamComponent" (Work.mk [] (Except.error "original error A")) =
      finalOutcome "GcamComponent" (Work.mk [] (Except.error "original error B")) := by
  refine ⟨?_, rfl, rfl, rfl⟩
  intro h
  injection h with h2
  exact absurd h2 (by decide)

/-- A work behavior that signals failure by a nonzero return value: the
wrapper turns it into the `RuntimeError` of components.py 181 and routes
it through the same `except` block. -/
def wRC : Work := ⟨[("dbxml", Val.vStr "/out/db")], Except.ok 1⟩

/-- Runner-only execution of the nonzero-return failure. -/
def sysR0 : Sys 0 := initSys 0 baseInitResults

def sysR1 : Sys 0 := { sysR0 with runner := RunnerPC.running }

def sysR2 : Sys 0 :=
  { status := wRC.retStatus, results := wRC.out, runner := RunnerPC.done,
    fetchers := fun i =>
      if sysR1.fetchers i = FetchPC.waiting then FetchPC.notified
      else sysR1.fetchers i }

theorem reach_sysR2 : Reach tcls wRC baseInitResults sysR2 := by
  have h1 : Step tcls wRC sysR0 sysR1 := Step.runStart sysR0 (by decide) rfl
  have h2 : Step tcls wRC sysR1 sysR2 := Step.runFinish sysR1 rfl
  exact Relation.ReflTransGen.tail
    (Relation.ReflTransGen.tail Relation.ReflTransGen.refl h1) h2

/-- C3 (amended): for every work behavior that fails — the invoked logic
raises an error, or the returned signal is a nonzero value — the
component transitions to the terminal Failed status 2 observable by
`fetch()` (every finished fetch raised the corresponding error), all
waiters are released, and the driver's aggregation still runs to
completion, counting the failure as data; but the error is not retained
on the task and does escape the wrapper into the component's own thread:
the original exception when the work raised, and the `RuntimeError`
naming the class and the return code when the work returned nonzero. -/
theorem c3_error_captured (c : String) (w : Work) (r0 : RMap) (n : Nat)
    (s : Sys n) (hs : Reach c w r0 s) (hd : s.runner = RunnerPC.done)
    (hfail : w.retStatus = 2) :
    s.status = 2 ∧
    Work.escaped c w ≠ none ∧
    (∀ e, w.signal = Except.error e → Work.escaped c w = some e) ∧
    (∀ rv : Int, w.signal = Except.ok rv → rv ≠ 0 →
      Work.escaped c w =
        some (c ++ ":  run_component returned error code " ++ toString rv)) ∧
    (∀ i, s.fetchers i ≠ FetchPC.waiting) ∧
    (∀ i o, s.fetchers i = FetchPC.fdone o → o = Except.error (failMsg c)) ∧
    engineRun [w] = (1, 1) := by
  have hinv := reach_inv hs
  have hst : s.status = 2 := by rw [(hinv.done_pub hd).1, hfail]
  have hfo : finalOutcome c w = Except.error (failMsg c) := by
    unfold finalOutcome
    rw [hfail]
    rw [if_neg (by decide)]
  refine ⟨hst, ?_, ?_, ?_, hinv.done_nowait hd, ?_, ?_⟩
  · cases hq : w.signal with
    | ok rv =>
        by_cases hz : rv = 0
        · exfalso
          have h1 : w.retStatus = 1 := by simp [Work.retStatus, hq, hz]
          rw [h1] at hfail
          exact absurd hfail (by decide)
        · simp [Work.escaped, hq, hz]
    | error e => simp [Work.escaped, hq]
  · intro e he
    simp [Work.escaped, he]
  · intro rv hrv hz
    simp [Work.escaped, hrv, hz]
  · intro i o hio
    rw [hinv.done_out i o hio, hfo]
  · simp [engineRun, runThreads, countFailed, hfail]

/-- Witness for C3 on two concrete failed executions: one whose work
raised, one whose work returned a nonzero signal. -/
theorem c3_error_captured_witness :
    sysF4.status = 2 ∧
    Work.escaped tcls wErr = some "disk failure" ∧
    sysR2.status = 2 ∧
    Work.escaped tcls wRC =
      some (tcls ++ ":  run_component returned error code " ++ toString (1 : Int)) :=
  ⟨(c3_error_captured tcls wErr baseInitResults 1 sysF4 reach_sysF4 rfl rfl).1,
   (c3_error_captured tcls wErr baseInitResults 1 sysF4 reach_sysF4 rfl
      rfl).2.2.1 "disk failure" rfl,
   (c3_error_captured tcls wRC baseInitResults 0 sysR2 reach_sysR2 rfl rfl).1,
   (c3_error_captured tcls wRC baseInitResults 0 sysR2 reach_sysR2 rfl
      rfl).2.2.2.1 1 rfl (by decide)⟩

/-- C3 counterexample: the claim says an error thrown during a task's own
work never escapes unhandled into the runtime; but `run_component_wrapper`
ends its `except` block with a bare `raise` (components.py 188), so for a
work function raising "boom" exactly that exception propagates out of the
wrapper into the thread runtime — and a nonzero return signal likewise
escapes as the `RuntimeError` of components.py 181. -/
theorem c3_error_escapes :
    Work.escaped "HydroComponent" (Work.mk [] (Except.error "boom")) =
      some "boom" ∧
    Work.escaped "HydroComponent" (Work.mk [] (Except.error "boom")) ≠ none ∧
    Work.escaped "GcamComponent" (Work.mk [] (Except.ok 1)) =
      some ("GcamComponent" ++ ":  run_component returned error code " ++
        toString (1 : Int)) ∧
    Work.escaped "GcamComponent" (Work.mk [] (Except.ok 1)) ≠ none := by
  refine ⟨rfl, ?_, rfl, ?_⟩
  · simp [Work.escaped]
  · simp [Work.escaped]

/-- C4 counterexample: with "gcam-core" already bound to component 0,
registering component 1 under the same name does not fail — registration
is the plain dict assignment `cap_tbl["gcam-core"] = self`
(components.py 350) and nothing in the code defines or raises a
`DuplicateCapability` — and it does not leave the table unchanged: the
name is silently rebound to the new component. -/
theorem c4_register_overwrites :
    registerCap [("gcam-core", 0)] "gcam-core" 1 = [("gcam-core", 1)] ∧
    alistLookup (registerCap [("gcam-core", 0)] "gcam-core" 1) "gcam-core" = some 1 ∧
    registerCap [("gcam-core", 0)] "gcam-core" 1 ≠ [("gcam-core", 0)] := by
  refine ⟨by decide, by decide, by decide⟩

/-- C4 (amended): registering a capability name never fails; it binds the
name to the new component, silently overwriting an existing binding under
the same name, and leaves every other binding unchanged. -/
theorem c4_register_rebinding (tbl : CapTbl) (name k : String) (comp : Nat)
    (hk : k ≠ name) :
    alistLookup (registerCap tbl name comp) name = some comp ∧
    alistLookup (registerCap tbl name comp) k = alistLookup tbl k :=
  ⟨alistLookup_set_self tbl name comp, alistLookup_set_ne tbl name k comp hk⟩

/-- Witness for the amended C4 on a concrete table. -/
theorem c4_register_rebinding_witness :
    alistLookup (registerCap [("gcam-core", 0)] "gcam-core" 1) "gcam-core" = some 1 ∧
    alistLookup (registerCap [("gcam-core", 0)] "gcam-core" 1) "general" =
      alistLookup [("gcam-core", 0)] "general" :=
  c4_register_rebinding [("gcam-core", 0)] "gcam-core" "general" 1 (by decide)

/-- C5: resolving a capability name that was never registered fails with
the dictionary lookup error (`KeyError`, the code's realization of
`UnknownCapability`) before any blocking occurs — the outcome of
`self.cap_tbl[name].fetch()` is then the same whatever any component's
blocking `fetch()` would return, because `fetch()` is never entered — and
resolving a registered name returns the component bound to it. -/
theorem c5_resolve (tbl : CapTbl) (name : String) :
    (alistLookup tbl name = none →
      resolveCap tbl name = Except.error ("KeyError: " ++ name) ∧
      ∀ f g : Nat → Except String RMap,
        resolveFetch tbl name f = resolveFetch tbl name g) ∧
    (∀ comp : Nat, alistLookup tbl name = some comp →
      resolveCap tbl name = Except.ok comp) := by
  constructor
  · intro hnone
    constructor
    · unfold resolveCap
      rw [hnone]
    · intro f g
      unfold resolveFetch resolveCap
      rw [hnone]
  · intro comp hsome
    unfold resolveCap
    rw [hsome]

/-- Witness for C5: an unregistered name fails with the `KeyError`, a
registered one resolves to its component. -/
theorem c5_resolve_witness :
    resolveCap [("gcam-hydro", 3)] "general" =
      Except.error ("KeyError: " ++ "general") ∧
    resolveCap [("gcam-hydro", 3)] "gcam-hydro" = Except.ok 3 :=
  ⟨((c5_resolve [("gcam-hydro", 3)] "general").1 (by decide)).1,
   (c5_resolve [("gcam-hydro", 3)] "gcam-hydro").2 3 (by decide)⟩

theorem countFailed_map (ws : List Work) :
    countFailed (ws.map Work.retStatus) =
      (ws.filter (fun w => w.retStatus ≠ 1)).length := by
  induction ws with
  | nil => rfl
  | cons hd tl ih =>
      by_cases h : hd.retStatus = 1 <;>
        simp [countFailed, List.filter_cons, h] at ih ⊢ <;>
        omega

/-- The runner of any component, started by the driver, can run to
completion by itself: in a system with zero fetch threads (the driver
never calls `fetch()`), two runner steps reach the terminated state whose
status is the one the work function determined. -/
theorem runner_completes (c : String) (w : Work) (r0 : RMap) :
    ∃ s : Sys 0, Reach c w r0 s ∧ s.runner = RunnerPC.done ∧
      s.status = w.retStatus := by
  refine ⟨_, Relation.ReflTransGen.tail
    (Relation.ReflTransGen.tail Relation.ReflTransGen.refl
      (Step.runStart (initSys 0 r0) ⟨?_, ?_⟩ rfl))
    (Step.runFinish _ rfl), rfl, rfl⟩
  · intro h
    simp [initSys] at h
  · intro i
    exact i.elim0

/-- C6: the driver's `__main__` loop collects exactly one handle per
component of the ordered list, joins them all, and reports the count of
components whose terminal status is not 1 as data — `engineRun` is a
total function, nothing is raised; and each component's execution is
realized purely by runner steps of its own transition system (a `Sys 0`
has no fetch threads: the driver itself never calls `fetch()`), ending
terminated with the status its work determined. -/
theorem c6_engine (ws : List Work) :
    (engineRun ws).1 = ws.length ∧
    (engineRun ws).2 = (ws.filter (fun w => w.retStatus ≠ 1)).length ∧
    ∀ w ∈ ws, ∃ s : Sys 0, Reach "Component" w baseInitResults s ∧
      s.runner = RunnerPC.done ∧ s.status = w.retStatus := by
  refine ⟨?_, ?_, ?_⟩
  · simp [engineRun, runThreads]
  · exact countFailed_map ws
  · intro w hw
    exact runner_completes "Component" w baseInitResults

/-- Witness for C6 on a concrete two-component list with one failure. -/
theorem c6_engine_witness :
    (engineRun [wOK, wErr]).1 = [wOK, wErr].length ∧
    (engineRun [wOK, wErr]).2 =
      ([wOK, wErr].filter (fun w => w.retStatus ≠ 1)).length ∧
    ∃ s : Sys 0, Reach "Component" wErr baseInitResults s ∧
      s.runner = RunnerPC.done ∧ s.status = wErr.retStatus :=
  ⟨(c6_engine [wOK, wErr]).1, (c6_engine [wOK, wErr]).2.1,
   (c6_engine [wOK, wErr]).2.2 wErr (by simp)⟩

/-- C8 counterexample: the claim says every task's result map contains
the reserved boolean `changed` entry defaulting to true; but
`GlobalParamsComponent.__init__` executes `self.results = self.params`
(components.py 296) after the base init, so right after construction its
results dictionary — unlike the base-initialized one — contains no
`changed` entry at all. -/
theorem c8_globalparams_no_changed :
    alistLookup (gpResults gpInit) "changed" = none ∧
    alistLookup baseInitResults "changed" = some (Val.vInt 1) :=
  ⟨rfl, rfl⟩

/-- C8 (amended): the base constructor seeds every component's results
dictionary with the reserved entry `changed = 1` (truthy); the GCAM core
component skips its run and returns success with `changed = 0` exactly
when its dbxml output already exists and clobber is not set, and the
hydrology component exactly when clobber is not set and all its expected
outputs exist; but `GlobalParamsComponent` replaces its results
dictionary with its params dictionary, so its results carry no `changed`
entry. -/
theorem c8_changed_flag (fileOk : String → Bool) (clobber : Bool)
    (dbxmlfile : String) (allout : List String) (res : RMap) :
    alistLookup baseInitResults "changed" = some (Val.vInt 1) ∧
    ((gcamCheckOutputs fileOk clobber dbxmlfile res).2 = some 0 ↔
      (fileOk dbxmlfile = true ∧ clobber = false)) ∧
    ((gcamCheckOutputs fileOk clobber dbxmlfile res).2 = some 0 →
      alistLookup (gcamCheckOutputs fileOk clobber dbxmlfile res).1 "changed" =
        some (Val.vInt 0)) ∧
    ((hydroCheckOutputs fileOk clobber allout res).2 = some 0 ↔
      (clobber = false ∧ allexist fileOk allout = true)) ∧
    ((hydroCheckOutputs fileOk clobber allout res).2 = some 0 →
      alistLookup (hydroCheckOutputs fileOk clobber allout res).1 "changed" =
        some (Val.vInt 0)) ∧
    alistLookup (gpResults gpInit) "changed" = none := by
  refine ⟨rfl, ?_, ?_, ?_, ?_, rfl⟩
  · cases hfe : fileOk dbxmlfile <;> cases clobber <;>
      simp [gcamCheckOutputs, hfe]
  · intro hskip
    cases hfe : fileOk dbxmlfile <;> cases clobber <;>
      simp [gcamCheckOutputs, hfe] at hskip ⊢
    all_goals exact alistLookup_set_self _ _ _
  · cases hae : allexist fileOk allout <;> cases clobber <;>
      simp [hydroCheckOutputs, hae]
  · intro hskip
    cases hae : allexist fileOk allout <;> cases clobber <;>
      simp [hydroCheckOutputs, hae] at hskip ⊢
    all_goals exact alistLookup_set_self _ _ _

/-- Witness for the amended C8: with all files present and clobber unset,
both cache checks skip with success and mark `changed = 0`. -/
theorem c8_changed_flag_witness :
    (gcamCheckOutputs (fun _ => true) false "/w/db.dbxml" baseInitResults).2 =
      some 0 ∧
    alistLookup (gcamCheckOutputs (fun _ => true) false "/w/db.dbxml"
      baseInitResults).1 "changed" = some (Val.vInt 0) ∧
    alistLookup (hydroCheckOutputs (fun _ => true) false ["/out/q.mat"]
      baseInitResults).1 "changed" = some (Val.vInt 0) := by
  have h := c8_changed_flag (fun _ => true) false "/w/db.dbxml" ["/out/q.mat"]
    baseInitResults
  exact ⟨h.2.1.mpr ⟨rfl, rfl⟩, h.2.2.1 (h.2.1.mpr ⟨rfl, rfl⟩),
    h.2.2.2.2.1 (h.2.2.2.1.mpr ⟨rfl, rfl⟩)⟩

theorem lookupStr_set_ne (m : RMap) (k k2 : String) (v : Val) (h : k2 ≠ k) :
    lookupStr (alistSet m k v) k2 = lookupStr m k2 := by
  unfold lookupStr
  rw [alistLookup_set_ne m k k2 v h]

theorem lookupStr_set_self (m : RMap) (k : String) (s : String) :
    lookupStr (alistSet m k (Val.vStr s)) k = some s := by
  unfold lookupStr
  rw [alistLookup_set_self]

/-- C10 counterexample: starting from parameters holding only the two
required entries and a working directory "/w", `run_component` stores
`inputdir = "/w/input-data"` and `rgnconfig = "/w/input-data/rgn14"` —
the absolutized forms of the defaults — and not the literal values
`./input-data` and `rgn14` the claim says are inserted. -/
theorem c10_defaults_absolutized :
    gpRun "/w" (gpAddparam (gpAddparam gpInit "ModelInterface"
        (Val.vStr "/mi.jar")) "DBXMLlib" (Val.vStr "/db")) =
      Except.ok (⟨[("ModelInterface", Val.vStr "/mi.jar"),
        ("DBXMLlib", Val.vStr "/db"),
        ("inputdir", Val.vStr "/w/input-data"),
        ("rgnconfig", Val.vStr "/w/input-data/rgn14")]⟩, 0) ∧
    "/w/input-data" ≠ "./input-data" ∧ "/w/input-data/rgn14" ≠ "rgn14" := by
  refine ⟨by decide, by decide, by decide⟩

/-- C10 (amended): for the component providing the `general` capability,
the results mapping and the params mapping are one shared object — a
parameter added via `addparam` is immediately visible in the results,
before the component runs — and running the component mutates the shared
mapping in place: `ModelInterface` and `DBXMLlib` are converted to
absolute paths, and when the keys are absent the defaults `./input-data`
and `rgn14` are inserted in absolutized form (`./input-data` resolved
against the working directory, `rgn14` against the absolute inputdir). -/
theorem c10_globalparams (s : GPState) (k : String) (v : Val)
    (cwd mi db : String)
    (hmi : lookupStr s.store "ModelInterface" = some mi)
    (hdb : lookupStr s.store "DBXMLlib" = some db)
    (hin : lookupStr s.store "inputdir" = none)
    (hrgn : lookupStr s.store "rgnconfig" = none) :
    gpResults (gpAddparam s k v) = gpParams (gpAddparam s k v) ∧
    alistLookup (gpResults (gpAddparam s k v)) k = some v ∧
    ∃ s2 : GPState, gpRun cwd s = Except.ok (s2, 0) ∧
      lookupStr s2.store "ModelInterface" = some (abspath mi cwd) ∧
      lookupStr s2.store "DBXMLlib" = some (abspath db cwd) ∧
      lookupStr s2.store "inputdir" = some (abspath "./input-data" cwd) ∧
      lookupStr s2.store "rgnconfig" =
        some (abspath "rgn14" (abspath "./input-data" cwd)) := by
  refine ⟨rfl, alistLookup_set_self _ _ _, ?_⟩
  have h2 : lookupStr (alistSet (alistSet s.store "ModelInterface"
      (Val.vStr (abspath mi cwd))) "DBXMLlib" (Val.vStr (abspath db cwd)))
      "inputdir" = none := by
    rw [lookupStr_set_ne _ _ _ _ (by decide), lookupStr_set_ne _ _ _ _ (by decide)]
    exact hin
  have h3 : lookupStr (alistSet (alistSet (alistSet s.store "ModelInterface"
      (Val.vStr (abspath mi cwd))) "DBXMLlib" (Val.vStr (abspath db cwd)))
      "inputdir" (Val.vStr (abspath "./input-data" cwd))) "rgnconfig" = none := by
    rw [lookupStr_set_ne _ _ _ _ (by decide), lookupStr_set_ne _ _ _ _ (by decide),
      lookupStr_set_ne _ _ _ _ (by decide)]
    exact hrgn
  refine ⟨⟨alistSet (alistSet (alistSet (alistSet s.store "ModelInterface"
      (Val.vStr (abspath mi cwd))) "DBXMLlib" (Val.vStr (abspath db cwd)))
      "inputdir" (Val.vStr (abspath "./input-data" cwd))) "rgnconfig"
      (Val.vStr (abspath "rgn14" (abspath "./input-data" cwd)))⟩, ?_, ?_, ?_, ?_, ?_⟩
  · unfold gpRun
    simp only [hmi, hdb, h2, h3]
  · rw [lookupStr_set_ne _ _ _ _ (by decide), lookupStr_set_ne _ _ _ _ (by decide),
      lookupStr_set_ne _ _ _ _ (by decide)]
    exact lookupStr_set_self _ _ _
  · rw [lookupStr_set_ne _ _ _ _ (by decide), lookupStr_set_ne _ _ _ _ (by decide)]
    exact lookupStr_set_self _ _ _
  · rw [lookupStr_set_ne _ _ _ _ (by decide)]
    exact lookupStr_set_self _ _ _
  · exact lookupStr_set_self _ _ _

/-- Witness for the amended C10 on a concrete parameter set. -/
theorem c10_globalparams_witness :
    alistLookup (gpResults (gpAddparam (gpAddparam (gpAddparam gpInit
      "ModelInterface" (Val.vStr "/mi.jar")) "DBXMLlib" (Val.vStr "/db"))
      "scenario" (Val.vStr "rcp8p5"))) "scenario" = some (Val.vStr "rcp8p5") ∧
    ∃ s2 : GPState, gpRun "/w" (gpAddparam (gpAddparam gpInit "ModelInterface"
        (Val.vStr "/mi.jar")) "DBXMLlib" (Val.vStr "/db")) =
        Except.ok (s2, 0) ∧
      lookupStr s2.store "ModelInterface" = some (abspath "/mi.jar" "/w") ∧
      lookupStr s2.store "DBXMLlib" = some (abspath "/db" "/w") ∧
      lookupStr s2.store "inputdir" = some (abspath "./input-data" "/w") ∧
      lookupStr s2.store "rgnconfig" =
        some (abspath "rgn14" (abspath "./input-data" "/w")) :=
  ⟨(c10_globalparams (gpAddparam (gpAddparam gpInit "ModelInterface"
      (Val.vStr "/mi.jar")) "DBXMLlib" (Val.vStr "/db")) "scenario"
      (Val.vStr "rcp8p5") "/w" "/mi.jar" "/db" (by decide) (by decide)
      (by decide) (by decide)).2.1,
   (c10_globalparams (gpAddparam (gpAddparam gpInit "ModelInterface"
      (Val.vStr "/mi.jar")) "DBXMLlib" (Val.vStr "/db")) "scenario"
      (Val.vStr "rcp8p5") "/w" "/mi.jar" "/db" (by decide) (by decide)
      (by decide) (by decide)).2.2⟩

end Cassandra
